import Mathlib

/-!
Verification of the DRAG calibration analysis module
(qiskit_experiments/library/characterization/analysis/drag_analysis.py).

The module is embedded shallowly over the rationals: Python float
arithmetic is idealised as exact rational arithmetic, the Python float
modulo operator is the mathematical remainder a - b * floor (a / b),
and the external spectral frequency estimator is an abstract function
parameter.
-/

namespace DragAnalysis

/-- Python float modulo a % b = a - b * floor (a / b). For b > 0 the
result lies in the interval from 0 inclusive to b exclusive; for b < 0
it lies in the interval from b exclusive to 0 inclusive. -/
def fmod (a b : ℚ) : ℚ := a - b * ⌊a / b⌋

/-- Beta canonicalisation performed by the post-processing step, line
213 of drag_analysis.py: ((beta + 1 / freq / 2) % (1 / freq)) - 1 / freq / 2. -/
def canonBeta (beta freq : ℚ) : ℚ :=
  fmod (beta + 1 / freq / 2) (1 / freq) - 1 / freq / 2

/-- Modelled from the spec: curve.FitData is outside src; per the data
model it is the fitted parameter vector popt ordered amp, freq, beta,
base, the parameter uncertainties, and the reduced chi-squared. -/
structure FitData where
  popt : List ℚ
  popt_err : List ℚ
  reduced_chisq : ℚ
deriving DecidableEq

/-- Embedding of DragCalAnalysis._post_process_fit_result: read
beta = popt[2] and freq = popt[1], overwrite popt[2] with the
canonicalised beta, and return the record otherwise unchanged. -/
def post_process_fit_result (fd : FitData) : FitData :=
  { fd with
      popt := fd.popt.set 2 (canonBeta (fd.popt.getD 2 0) (fd.popt.getD 1 0)) }

/- Helper lemmas about fmod and canonBeta. -/

theorem fmod_eq_mul_fract (a : ℚ) {b : ℚ} (hb : b ≠ 0) :
    fmod a b = b * Int.fract (a / b) := by
  unfold fmod Int.fract
  rw [mul_sub]
  rw [mul_div_cancel₀ _ hb]

theorem canonBeta_lb {freq : ℚ} (beta : ℚ) (hf : 0 < freq) :
    -(1 / (2 * freq)) ≤ canonBeta beta freq := by
  have hm : (0 : ℚ) < 1 / freq := by positivity
  have h1 := Int.fract_nonneg ((beta + 1 / freq / 2) / (1 / freq))
  have key : (1 : ℚ) / (2 * freq) = 1 / freq / 2 := by
    rw [div_div, mul_comm]
  unfold canonBeta
  rw [fmod_eq_mul_fract _ hm.ne', key]
  nlinarith [mul_nonneg hm.le h1]

theorem canonBeta_ub {freq : ℚ} (beta : ℚ) (hf : 0 < freq) :
    canonBeta beta freq < 1 / (2 * freq) := by
  have hm : (0 : ℚ) < 1 / freq := by positivity
  have h2 := Int.fract_lt_one ((beta + 1 / freq / 2) / (1 / freq))
  have key : (1 : ℚ) / (2 * freq) = 1 / freq / 2 := by
    rw [div_div, mul_comm]
  unfold canonBeta
  rw [fmod_eq_mul_fract _ hm.ne', key]
  nlinarith [mul_lt_mul_of_pos_left h2 hm]

theorem canonBeta_period (beta freq : ℚ) (k : ℤ) (hf : freq ≠ 0) :
    canonBeta (beta + k / freq) freq = canonBeta beta freq := by
  have hm : (1 : ℚ) / freq ≠ 0 := one_div_ne_zero hf
  unfold canonBeta
  rw [fmod_eq_mul_fract _ hm, fmod_eq_mul_fract _ hm]
  have harg : (beta + k / freq + 1 / freq / 2) / (1 / freq)
      = (beta + 1 / freq / 2) / (1 / freq) + k := by
    field_simp
    ring
  rw [harg, Int.fract_add_int]

theorem canonBeta_sub_self (beta freq : ℚ) :
    ∃ k : ℤ, canonBeta beta freq - beta = k / freq := by
  refine ⟨-⌊(beta + 1 / freq / 2) / (1 / freq)⌋, ?_⟩
  unfold canonBeta fmod
  push_cast
  ring

theorem canonBeta_abs_le_of_neg {freq : ℚ} (beta : ℚ) (hf : freq < 0) :
    |canonBeta beta freq| ≤ -(1 / (2 * freq)) := by
  have hm : (1 : ℚ) / freq < 0 := by
    exact one_div_neg.mpr hf
  have h1 := Int.fract_nonneg ((beta + 1 / freq / 2) / (1 / freq))
  have h2 := Int.fract_lt_one ((beta + 1 / freq / 2) / (1 / freq))
  have key : (1 : ℚ) / (2 * freq) = 1 / freq / 2 := by
    rw [div_div, mul_comm]
  unfold canonBeta
  rw [fmod_eq_mul_fract _ hm.ne, key, abs_le]
  constructor
  · nlinarith [mul_lt_mul_of_neg_left h2 hm]
  · nlinarith [mul_nonpos_of_nonpos_of_nonneg hm.le h1]

/- List access helpers used to express which popt entries change. -/

theorem getD_set_self {α : Type} (l : List α) (i : ℕ) (v d : α)
    (h : i < l.length) : (l.set i v).getD i d = v := by
  induction l generalizing i with
  | nil => simp at h
  | cons a t ih =>
      cases i with
      | zero => rfl
      | succ j =>
          simp only [List.set, List.getD, List.get?]
          exact ih j (by simpa using h)

theorem getD_set_ne {α : Type} (l : List α) (i j : ℕ) (v d : α)
    (h : i ≠ j) : (l.set i v).getD j d = l.getD j d := by
  induction l generalizing i j with
  | nil => rfl
  | cons a t ih =>
      cases i with
      | zero =>
          cases j with
          | zero => exact absurd rfl h
          | succ m => rfl
      | succ n =>
          cases j with
          | zero => rfl
          | succ m =>
              simp only [List.set, List.getD, List.get?]
              exact ih n m (fun hc => h (by rw [hc]))

/- Claims C1, C2, C3 about the post-processor. -/

/-- C1 counterexample: at beta = 1/2, freq = 1 the post-processed beta is
-1/2, which does not lie in the claimed centered interval that excludes
-1/(2 freq) and includes 1/(2 freq). -/
theorem C1_counterexample :
    canonBeta (1 / 2) 1 = -(1 / 2) ∧
    ¬(-(1 / (2 * 1)) < canonBeta (1 / 2) 1 ∧ canonBeta (1 / 2) 1 ≤ 1 / (2 * 1)) := by
  have h : canonBeta (1 / 2) 1 = -(1 / 2) := by
    unfold canonBeta fmod
    norm_num
  refine ⟨h, ?_⟩
  rw [h]
  norm_num

/-- C1 (amended): for every fit result with fitted frequency freq > 0 the
post-processor replaces the fitted beta with
((beta + 1/(2 freq)) mod (1/freq)) - 1/(2 freq); this replacement lies in
the half-open centered interval from -1/(2 freq) inclusive to
1/(2 freq) exclusive, and differs from the original beta by an integer
multiple of the period 1/freq. -/
theorem C1_theorem (fd : FitData) (hf : 0 < fd.popt.getD 1 0)
    (hl : 2 < fd.popt.length) :
    (post_process_fit_result fd).popt.getD 2 0
      = fmod (fd.popt.getD 2 0 + 1 / (2 * fd.popt.getD 1 0)) (1 / fd.popt.getD 1 0)
          - 1 / (2 * fd.popt.getD 1 0) ∧
    -(1 / (2 * fd.popt.getD 1 0)) ≤ (post_process_fit_result fd).popt.getD 2 0 ∧
    (post_process_fit_result fd).popt.getD 2 0 < 1 / (2 * fd.popt.getD 1 0) ∧
    ∃ k : ℤ, (post_process_fit_result fd).popt.getD 2 0 - fd.popt.getD 2 0
        = k / fd.popt.getD 1 0 := by
  have hset : (post_process_fit_result fd).popt.getD 2 0
      = canonBeta (fd.popt.getD 2 0) (fd.popt.getD 1 0) := by
    unfold post_process_fit_result
    exact getD_set_self _ _ _ _ hl
  have key : (1 : ℚ) / (2 * fd.popt.getD 1 0) = 1 / fd.popt.getD 1 0 / 2 := by
    rw [div_div, mul_comm]
  refine ⟨?_, ?_, ?_, ?_⟩
  · rw [hset, key]
    rfl
  · rw [hset]
    exact canonBeta_lb _ hf
  · rw [hset]
    exact canonBeta_ub _ hf
  · rw [hset]
    exact canonBeta_sub_self _ _

/-- C1 witness: the amended range statement instantiated at the concrete
fit result popt = [1, 2, 5/3, 0]. -/
theorem C1_witness :
    -(1 / (2 * ((⟨[1, 2, 5/3, 0], [0, 0, 0, 0], 1⟩ : FitData).popt.getD 1 0)))
      ≤ (post_process_fit_result ⟨[1, 2, 5/3, 0], [0, 0, 0, 0], 1⟩).popt.getD 2 0 :=
  (C1_theorem ⟨[1, 2, 5/3, 0], [0, 0, 0, 0], 1⟩
    (by norm_num [List.getD]) (by norm_num)).2.1

/-- C2: canonicalisation is invariant under shifting beta by an integer
number of periods k / freq, for every freq > 0. -/
theorem C2_theorem (beta freq : ℚ) (k : ℤ) (hf : 0 < freq) :
    canonBeta (beta + k / freq) freq = canonBeta beta freq :=
  canonBeta_period beta freq k hf.ne'

/-- C2 witness: the periodicity instantiated at beta = 1/3, freq = 2,
k = -5. -/
theorem C2_witness :
    (0 : ℚ) < 2 ∧ canonBeta (1 / 3 + ((-5 : ℤ) : ℚ) / 2) 2 = canonBeta (1 / 3) 2 :=
  ⟨by norm_num, C2_theorem (1 / 3) 2 (-5) (by norm_num)⟩

/-- C3: for every beta and every freq > 0 the canonical beta satisfies
|output| ≤ 1/(2 freq). -/
theorem C3_theorem (beta freq : ℚ) (hf : 0 < freq) :
    |canonBeta beta freq| ≤ 1 / (2 * freq) := by
  rw [abs_le]
  exact ⟨canonBeta_lb beta hf, (canonBeta_ub beta hf).le⟩

/-- C3 witness: the absolute-value bound instantiated at beta = 7/5,
freq = 1. -/
theorem C3_witness : |canonBeta (7 / 5) 1| ≤ 1 / (2 * 1) :=
  C3_theorem (7 / 5) 1 (by norm_num)

/-- C8 counterexample: on the fit result popt = [1, -1, 13/10, 0], whose
fitted frequency -1 is negative, the post-processor does not fail: it
computes the modulo formula with the negative period and returns the
record with popt[2] replaced by 3/10. -/
theorem C8_counterexample :
    post_process_fit_result ⟨[1, -1, 13/10, 0], [0, 0, 0, 0], 1⟩
      = ⟨[1, -1, 3/10, 0], [0, 0, 0, 0], 1⟩ := by
  have h : canonBeta (13 / 10) (-1) = 3 / 10 := by
    unfold canonBeta fmod
    norm_num
  unfold post_process_fit_result
  norm_num [List.getD, h, List.set]

/-- C8 (amended): for a fitted frequency freq < 0 the post-processor
performs no frequency check and raises no error: it returns the fit
result with popt[2] replaced by the same modulo formula taken with the
negative period 1/freq, a value of magnitude at most -1/(2 freq) that
differs from the fitted beta by an integer multiple of 1/freq. Only
freq = 0 makes the formula undefined (a division by zero). -/
theorem C8_theorem (fd : FitData) (hf : fd.popt.getD 1 0 < 0)
    (hl : 2 < fd.popt.length) :
    (post_process_fit_result fd).popt.getD 2 0
      = canonBeta (fd.popt.getD 2 0) (fd.popt.getD 1 0) ∧
    |(post_process_fit_result fd).popt.getD 2 0| ≤ -(1 / (2 * fd.popt.getD 1 0)) ∧
    ∃ k : ℤ, (post_process_fit_result fd).popt.getD 2 0 - fd.popt.getD 2 0
        = k / fd.popt.getD 1 0 := by
  have hset : (post_process_fit_result fd).popt.getD 2 0
      = canonBeta (fd.popt.getD 2 0) (fd.popt.getD 1 0) := by
    unfold post_process_fit_result
    exact getD_set_self _ _ _ _ hl
  refine ⟨hset, ?_, ?_⟩
  · rw [hset]
    exact canonBeta_abs_le_of_neg _ hf
  · rw [hset]
    exact canonBeta_sub_self _ _

/-- C8 witness: the amended statement instantiated at the concrete fit
result popt = [1, -2, 7/4, 0] with negative fitted frequency -2. -/
theorem C8_witness :
    |(post_process_fit_result ⟨[1, -2, 7/4, 0], [0, 0, 0, 0], 1⟩).popt.getD 2 0|
      ≤ -(1 / (2 * ((⟨[1, -2, 7/4, 0], [0, 0, 0, 0], 1⟩ : FitData).popt.getD 1 0))) :=
  (C8_theorem ⟨[1, -2, 7/4, 0], [0, 0, 0, 0], 1⟩
    (by norm_num [List.getD]) (by norm_num)).2.1

/-- C9: the post-processor mutates only popt[2], turning it into the
canonical beta computed once from the original popt[2] and popt[1];
the uncertainties, the reduced chi-squared, the popt length and every
other popt entry are returned unchanged. -/
theorem C9_theorem (fd : FitData) (hl : 2 < fd.popt.length) :
    (post_process_fit_result fd).popt_err = fd.popt_err ∧
    (post_process_fit_result fd).reduced_chisq = fd.reduced_chisq ∧
    (post_process_fit_result fd).popt.length = fd.popt.length ∧
    (∀ i : ℕ, i ≠ 2 → (post_process_fit_result fd).popt.getD i 0 = fd.popt.getD i 0) ∧
    (post_process_fit_result fd).popt.getD 2 0
      = canonBeta (fd.popt.getD 2 0) (fd.popt.getD 1 0) := by
  refine ⟨rfl, rfl, ?_, ?_, ?_⟩
  · unfold post_process_fit_result
    simp
  · intro i hi
    unfold post_process_fit_result
    exact getD_set_ne _ _ _ _ _ (Ne.symm hi)
  · unfold post_process_fit_result
    exact getD_set_self _ _ _ _ hl

/-- C9 witness: frame conditions instantiated at the concrete fit result
popt = [1, 2, 5/3, 0], uncertainties [1, 1, 1, 1], chi-squared 7/2. -/
theorem C9_witness :
    (post_process_fit_result ⟨[1, 2, 5/3, 0], [1, 1, 1, 1], 7/2⟩).reduced_chisq = 7/2 ∧
    (post_process_fit_result ⟨[1, 2, 5/3, 0], [1, 1, 1, 1], 7/2⟩).popt.getD 0 0 = 1 := by
  have h := C9_theorem ⟨[1, 2, 5/3, 0], [1, 1, 1, 1], 7/2⟩ (by norm_num)
  exact ⟨h.2.1, (h.2.2.2.1 0 (by norm_num)).trans (by norm_num [List.getD])⟩

/- Data model of the guess generator (_generate_fit_guesses). -/

/-- Modelled from the spec: the p0 record of curve.FitOptions (outside
src) holds one optional initial guess per fit parameter; none models a
parameter the user has not supplied, and set_if_empty never overwrites
a present value. -/
structure ParamGuesses where
  amp : Option ℚ
  freq : Option ℚ
  beta : Option ℚ
  base : Option ℚ
deriving DecidableEq

/-- One bound is a pair (lower, upper); the upper bound may be np.inf,
modelled as the top element. -/
abbrev Bound := ℚ × WithTop ℚ

/-- Modelled from the spec: the bounds record of curve.FitOptions
(outside src), one optional (lower, upper) pair per fit parameter with
the same set_if_empty seeding. -/
structure ParamBounds where
  amp : Option Bound
  freq : Option Bound
  beta : Option Bound
  base : Option Bound
deriving DecidableEq

/-- Modelled from the spec: a curve.FitOptions (outside src) is the pair
of initial guesses and bounds. -/
structure FitOptions where
  p0 : ParamGuesses
  bounds : ParamBounds
deriving DecidableEq

/-- Python truthiness-based or, as in (user_opt.p0["amp"] or base_guess):
None and 0.0 both select the right operand. -/
def pyOr (a : Option ℚ) (v : ℚ) : ℚ :=
  match a with
  | none => v
  | some x => if x = 0 then v else x

/-- Input data of one analysis run: the three series (x, y) and the
fixed repetition counts reps0, reps1, reps2 from the analysis options. -/
structure DragData where
  x0 : List ℚ
  y0 : List ℚ
  x1 : List ℚ
  y1 : List ℚ
  x2 : List ℚ
  y2 : List ℚ
  reps0 : ℚ
  reps1 : ℚ
  reps2 : ℚ

/-- Python min over a list, 0 for the empty list (on which the code is
never run). -/
def listMin (l : List ℚ) : ℚ := l.foldl min (l.headD 0)

/-- Python max over a list, 0 for the empty list. -/
def listMax (l : List ℚ) : ℚ := l.foldl max (l.headD 0)

/-- The y data of all three series combined, as self._data().y. -/
def allY (d : DragData) : List ℚ := d.y0 ++ d.y1 ++ d.y2

/-- np.ptp of the combined y data. -/
def ptpY (d : DragData) : ℚ := listMax (allY d) - listMin (allY d)

/-- Series selection on lines 149 to 154: Python max with a key returns
the first maximal element, replacing the current best only on a strictly
larger repetition count. The result is the selected series x data,
y data and repetition count. -/
def selectSeries (d : DragData) : List ℚ × List ℚ × ℚ :=
  let s0 := (d.x0, d.y0, d.reps0)
  let s1 := (d.x1, d.y1, d.reps1)
  let s2 := (d.x2, d.y2, d.reps2)
  let b1 := if s1.2.2 > s0.2.2 then s1 else s0
  if s2.2.2 > b1.2.2 then s2 else b1

/-- Modelled from the spec: the spectral estimator curve.guess.frequency
is outside src and its numeric content does not decide any claim, so it
is abstracted as an arbitrary function from the selected series x and y
data to a rational. -/
abbrev FreqEstimator := List ℚ → List ℚ → ℚ

/-- Line 157: raw spectral estimate on the selected series divided by
the selected series repetition count. -/
def freqGuess (fe : FreqEstimator) (d : DragData) : ℚ :=
  fe (selectSeries d).1 (selectSeries d).2.1 / (selectSeries d).2.2

/-- np.linspace with both endpoints included: n points from a to b. -/
def linspace (a b : ℚ) (n : ℕ) : List ℚ :=
  (List.range n).map (fun i => a + (b - a) * i / ((n : ℚ) - 1))

/-- The three amplitude scale factors of the fan-out loop on line 180. -/
def ampFactors : List ℚ := [-1, -1/2, -1/4]

/-- Line 158: p0.set_if_empty(freq=freqs_guess). -/
def seedFreq (fe : FreqEstimator) (d : DragData) (p : ParamGuesses) : ParamGuesses :=
  { p with freq := some (p.freq.getD (freqGuess fe d)) }

/-- Line 160: midpoint of the scanned x values of series 0. -/
def avgX (d : DragData) : ℚ := (listMax d.x0 + listMin d.x0) / 2

/-- Line 161: span of the scanned x values of series 0. -/
def spanX (d : DragData) : ℚ := listMax d.x0 - listMin d.x0

/-- Line 162: beta_bound = max(5 / user_opt.p0["freq"], span_x), read
after the frequency guess has been seeded. -/
def betaBound (fe : FreqEstimator) (d : DragData) (uo : FitOptions) : ℚ :=
  max (5 / ((seedFreq fe d uo.p0).freq.getD 0)) (spanX d)

/-- Lines 165 to 170: bounds.set_if_empty for amp, freq, beta and base. -/
def seededBounds (fe : FreqEstimator) (d : DragData) (uo : FitOptions) : ParamBounds :=
  { amp := some (uo.bounds.amp.getD (-2 * ptpY d, ((0 : ℚ) : WithTop ℚ)))
    freq := some (uo.bounds.freq.getD (0, (⊤ : WithTop ℚ)))
    beta := some (uo.bounds.beta.getD
        (avgX d - betaBound fe d uo, ((avgX d + betaBound fe d uo : ℚ) : WithTop ℚ)))
    base := some (uo.bounds.base.getD
        (listMin (allY d) - ptpY d, ((listMax (allY d) + ptpY d : ℚ) : WithTop ℚ))) }

/-- Line 171: base_guess = (max(self._data().y) - min(self._data().y)) / 2. -/
def baseGuess (d : DragData) : ℚ := (listMax (allY d) - listMin (allY d)) / 2

/-- Lines 158 and 172: the p0 record after the freq seeding and
p0.set_if_empty(base=(user_opt.p0["amp"] or base_guess)). -/
def seededP0 (fe : FreqEstimator) (d : DragData) (uo : FitOptions) : ParamGuesses :=
  let p0a := seedFreq fe d uo.p0
  { p0a with base := some (p0a.base.getD (pyOr p0a.amp (baseGuess d))) }

/-- Lines 179 to 186: for each amplitude factor and each of the 20
evenly spaced beta values, copy the seeded options and set_if_empty amp
and beta. -/
def fanOut (min_beta max_beta ptp_y : ℚ) (g : ParamGuesses) (b : ParamBounds) :
    List FitOptions :=
  ampFactors.flatMap (fun amp_factor =>
    (linspace min_beta max_beta 20).map (fun beta_guess =>
      { p0 := { g with
                  amp := some (g.amp.getD (ptp_y * amp_factor))
                  beta := some (g.beta.getD beta_guess) }
        bounds := b }))

/-- Embedding of DragCalAnalysis._generate_fit_guesses: seed the
frequency guess, the bounds and the base guess, then fan out over the
three amplitude factors and the 20 beta values. The external spectral
estimator is the function parameter fe. -/
def generate_fit_guesses (fe : FreqEstimator) (d : DragData) (user_opt : FitOptions) :
    List FitOptions :=
  fanOut (listMin d.x0) (listMax d.x0) (ptpY d) (seededP0 fe d user_opt)
    (seededBounds fe d user_opt)

/- Quality evaluator (_evaluate_quality). The uncertainty-comparison
utility curve.is_error_not_significant is external to this module; its
boolean verdict on the fitted beta is carried as a field. -/

/-- Modelled from the spec: the fit data consumed by _evaluate_quality —
the reduced chi-squared and the nominal values of the fitted beta and
freq — together with the boolean verdict of the external
uncertainty-comparison utility curve.is_error_not_significant (outside
src), which the spec treats as a single black-box boolean decision. -/
structure QualityData where
  reduced_chisq : ℚ
  beta_nominal : ℚ
  freq_nominal : ℚ
  beta_err_not_significant : Bool

/-- Embedding of DragCalAnalysis._evaluate_quality: the string "good"
when all three criteria hold, the string "bad" otherwise. -/
def evaluate_quality (fd : QualityData) : String :=
  if fd.reduced_chisq < 3
      ∧ |fd.beta_nominal| < 1 / fd.freq_nominal / 2
      ∧ fd.beta_err_not_significant = true
  then "good" else "bad"

/- Helper lemmas about the fan-out. -/

theorem length_fanOut (mb Mb p : ℚ) (g : ParamGuesses) (b : ParamBounds) :
    (fanOut mb Mb p g b).length = 60 := by
  simp [fanOut, ampFactors, linspace]
  decide

theorem generate_ne_nil (fe : FreqEstimator) (d : DragData) (uo : FitOptions) :
    generate_fit_guesses fe d uo ≠ [] := by
  intro h
  have hlen := length_fanOut (listMin d.x0) (listMax d.x0) (ptpY d)
    (seededP0 fe d uo) (seededBounds fe d uo)
  rw [generate_fit_guesses] at h
  rw [h] at hlen
  simp at hlen

theorem headD_mem {α : Type} (l : List α) (z : α) (h : l ≠ []) : l.headD z ∈ l := by
  cases l with
  | nil => exact absurd rfl h
  | cons a t => exact List.mem_cons_self a t

/- Claim C4 about the quality evaluator. -/

/-- C4: the quality evaluator returns the label "good" exactly when the
reduced chi-squared is below 3, the absolute nominal beta is below
1/(2 freq) and the external significance utility reports the beta
uncertainty as not significant; in every other case it returns exactly
the label "bad", and no other output is possible. -/
theorem C4_theorem (fd : QualityData) :
    (evaluate_quality fd = "good" ↔
      (fd.reduced_chisq < 3 ∧ |fd.beta_nominal| < 1 / (2 * fd.freq_nominal) ∧
        fd.beta_err_not_significant = true)) ∧
    (evaluate_quality fd = "good" ∨ evaluate_quality fd = "bad") := by
  have key : (1 : ℚ) / (2 * fd.freq_nominal) = 1 / fd.freq_nominal / 2 := by
    rw [div_div, mul_comm]
  unfold evaluate_quality
  rw [key]
  constructor
  · split_ifs with h
    · exact iff_of_true rfl h
    · exact iff_of_false (by decide) h
  · split_ifs <;> simp

/- Claims C5, C6, C7, C10 about the guess generator. -/

/-- C5: with no user amp and beta guesses the generator returns exactly
60 candidates, whose amp and beta guesses range exactly over the pairs
of an amplitude factor from {-1, -1/2, -1/4} applied to the y peak-to-peak
and one of the 20 evenly spaced beta values between the minimum and
maximum scanned x value; a user-supplied amp or beta guess is kept
unchanged in every candidate. -/
theorem C5_theorem (fe : FreqEstimator) (d : DragData) (uo : FitOptions) :
    ((uo.p0.amp = none ∧ uo.p0.beta = none) →
        (generate_fit_guesses fe d uo).length = 60 ∧
        (∀ opt ∈ generate_fit_guesses fe d uo,
            ∃ f ∈ ampFactors, ∃ bg ∈ linspace (listMin d.x0) (listMax d.x0) 20,
              opt.p0.amp = some (ptpY d * f) ∧ opt.p0.beta = some bg) ∧
        (∀ f ∈ ampFactors, ∀ bg ∈ linspace (listMin d.x0) (listMax d.x0) 20,
            ∃ opt ∈ generate_fit_guesses fe d uo,
              opt.p0.amp = some (ptpY d * f) ∧ opt.p0.beta = some bg)) ∧
    (∀ a, uo.p0.amp = some a →
        ∀ opt ∈ generate_fit_guesses fe d uo, opt.p0.amp = some a) ∧
    (∀ b, uo.p0.beta = some b →
        ∀ opt ∈ generate_fit_guesses fe d uo, opt.p0.beta = some b) := by
  refine ⟨?_, ?_, ?_⟩
  · rintro ⟨ha, hb⟩
    refine ⟨length_fanOut _ _ _ _ _, ?_, ?_⟩
    · intro opt hopt
      simp only [generate_fit_guesses, fanOut, List.mem_flatMap, List.mem_map] at hopt
      obtain ⟨f, hf, bg, hbg, rfl⟩ := hopt
      exact ⟨f, hf, bg, hbg, by simp [seededP0, seedFreq, ha],
        by simp [seededP0, seedFreq, hb]⟩
    · intro f hf bg hbg
      refine ⟨{ p0 := { seededP0 fe d uo with
                          amp := some ((seededP0 fe d uo).amp.getD (ptpY d * f))
                          beta := some ((seededP0 fe d uo).beta.getD bg) }
                bounds := seededBounds fe d uo }, ?_, ?_, ?_⟩
      · simp only [generate_fit_guesses, fanOut, List.mem_flatMap, List.mem_map]
        exact ⟨f, hf, bg, hbg, rfl⟩
      · simp [seededP0, seedFreq, ha]
      · simp [seededP0, seedFreq, hb]
  · intro a ha opt hopt
    simp only [generate_fit_guesses, fanOut, List.mem_flatMap, List.mem_map] at hopt
    obtain ⟨f, hf, bg, hbg, rfl⟩ := hopt
    simp [seededP0, seedFreq, ha]
  · intro b hb opt hopt
    simp only [generate_fit_guesses, fanOut, List.mem_flatMap, List.mem_map] at hopt
    obtain ⟨f, hf, bg, hbg, rfl⟩ := hopt
    simp [seededP0, seedFreq, hb]

/-- Concrete frequency estimator used by the witnesses. -/
def feEx : FreqEstimator := fun _ _ => 1

/-- Concrete data set used by the witnesses: reps 1, 3, 5. -/
def dEx : DragData := ⟨[0, 1], [0, 1], [0, 1], [0, 1], [0, 1], [0, 1], 1, 3, 5⟩

/-- Fit options with no user guesses and no user bounds. -/
def uoEx : FitOptions := ⟨⟨none, none, none, none⟩, ⟨none, none, none, none⟩⟩

/-- C5 witness: the generator yields 60 candidates on the concrete data
set with no user guesses. -/
theorem C5_witness : (generate_fit_guesses feEx dEx uoEx).length = 60 :=
  ((C5_theorem feEx dEx uoEx).1 ⟨rfl, rfl⟩).1

/-- C6: the selected repetition count is the largest of the three; with
no user freq guess every candidate carries the spectral estimate on the
selected series divided by that series repetition count, and a
user-supplied freq guess is kept unchanged in every candidate. -/
theorem C6_theorem (fe : FreqEstimator) (d : DragData) (uo : FitOptions) :
    (selectSeries d).2.2 = max (max d.reps0 d.reps1) d.reps2 ∧
    (uo.p0.freq = none →
      ∀ opt ∈ generate_fit_guesses fe d uo,
        opt.p0.freq = some (fe (selectSeries d).1 (selectSeries d).2.1
            / (selectSeries d).2.2)) ∧
    (∀ v, uo.p0.freq = some v →
      ∀ opt ∈ generate_fit_guesses fe d uo, opt.p0.freq = some v) := by
  refine ⟨?_, ?_, ?_⟩
  · simp only [selectSeries, max_def]
    dsimp only
    split_ifs <;> linarith
  · intro h opt hopt
    simp only [generate_fit_guesses, fanOut, List.mem_flatMap, List.mem_map] at hopt
    obtain ⟨f, hf, bg, hbg, rfl⟩ := hopt
    simp [seededP0, seedFreq, h, freqGuess]
  · intro v h opt hopt
    simp only [generate_fit_guesses, fanOut, List.mem_flatMap, List.mem_map] at hopt
    obtain ⟨f, hf, bg, hbg, rfl⟩ := hopt
    simp [seededP0, seedFreq, h]

/-- C6 witness: on the concrete data set with no user freq guess, the
first candidate carries the estimate divided by the selected repetition
count. -/
theorem C6_witness :
    ((generate_fit_guesses feEx dEx uoEx).headD uoEx).p0.freq
      = some (feEx (selectSeries dEx).1 (selectSeries dEx).2.1
          / (selectSeries dEx).2.2) :=
  (C6_theorem feEx dEx uoEx).2.1 rfl _
    (headD_mem _ _ (generate_ne_nil feEx dEx uoEx))

/-- C7: with no user bounds every candidate carries amp bounds
(-2 ptp(y), 0) with upper bound exactly 0, freq bounds (0, inf), base
bounds (min y - ptp y, max y + ptp y) and beta bounds (m - w, m + w)
where m is the midpoint of the scanned x range and
w = max(5 / freq_guess, x span) for the seeded frequency guess. -/
theorem C7_theorem (fe : FreqEstimator) (d : DragData) (uo : FitOptions)
    (hb : uo.bounds = ⟨none, none, none, none⟩) :
    betaBound fe d uo = max (5 / (uo.p0.freq.getD (freqGuess fe d))) (spanX d) ∧
    ∀ opt ∈ generate_fit_guesses fe d uo,
      opt.bounds.amp = some (-2 * ptpY d, ((0 : ℚ) : WithTop ℚ)) ∧
      opt.bounds.freq = some (0, (⊤ : WithTop ℚ)) ∧
      opt.bounds.base = some (listMin (allY d) - ptpY d,
          ((listMax (allY d) + ptpY d : ℚ) : WithTop ℚ)) ∧
      opt.bounds.beta = some (avgX d - betaBound fe d uo,
          ((avgX d + betaBound fe d uo : ℚ) : WithTop ℚ)) := by
  constructor
  · simp [betaBound, seedFreq]
  · intro opt hopt
    simp only [generate_fit_guesses, fanOut, List.mem_flatMap, List.mem_map] at hopt
    obtain ⟨f, hf, bg, hbg, rfl⟩ := hopt
    refine ⟨?_, ?_, ?_, ?_⟩ <;> simp [seededBounds, hb]

/-- C7 witness: on the concrete data set with no user bounds, the first
candidate carries freq bounds (0, inf). -/
theorem C7_witness :
    ((generate_fit_guesses feEx dEx uoEx).headD uoEx).bounds.freq
      = some (0, (⊤ : WithTop ℚ)) :=
  ((C7_theorem feEx dEx uoEx rfl).2 _
    (headD_mem _ _ (generate_ne_nil feEx dEx uoEx))).2.1

/-- C10: with no user base guess, a nonzero user amp guess is copied
into the base guess of every candidate; half the y range is used as the
base guess exactly when the amp guess is unset or zero. -/
theorem C10_theorem (fe : FreqEstimator) (d : DragData) (uo : FitOptions)
    (hb : uo.p0.base = none) :
    (∀ a, uo.p0.amp = some a → a ≠ 0 →
        ∀ opt ∈ generate_fit_guesses fe d uo, opt.p0.base = some a) ∧
    ((uo.p0.amp = none ∨ uo.p0.amp = some 0) →
        ∀ opt ∈ generate_fit_guesses fe d uo,
          opt.p0.base = some ((listMax (allY d) - listMin (allY d)) / 2)) := by
  constructor
  · intro a ha hz opt hopt
    simp only [generate_fit_guesses, fanOut, List.mem_flatMap, List.mem_map] at hopt
    obtain ⟨f, hf, bg, hbg, rfl⟩ := hopt
    simp [seededP0, seedFreq, pyOr, hb, ha, hz]
  · intro ha opt hopt
    simp only [generate_fit_guesses, fanOut, List.mem_flatMap, List.mem_map] at hopt
    obtain ⟨f, hf, bg, hbg, rfl⟩ := hopt
    rcases ha with h | h <;> simp [seededP0, seedFreq, pyOr, hb, h, baseGuess]

/-- Fit options with a nonzero user amp guess and no base guess. -/
def uoAmp : FitOptions := ⟨⟨some (-3), none, none, none⟩, ⟨none, none, none, none⟩⟩

/-- C10 witness: with user amp guess -3 and no base guess the first
candidate carries base guess -3. -/
theorem C10_witness :
    ((generate_fit_guesses feEx dEx uoAmp).headD uoAmp).p0.base = some (-3) :=
  (C10_theorem feEx dEx uoAmp rfl).1 (-3) rfl (by norm_num) _
    (headD_mem _ _ (generate_ne_nil feEx dEx uoAmp))
